import Mathlib

set_option maxHeartbeats 2000000
set_option maxRecDepth 4000

/-!
Shallow embedding of the spreadsheet-formula evaluation and recalculation
engine of `src/app.py` (City-Events-Calculator).

Modelling conventions, used consistently below:
* Python scalars are `PyVal`: `None`, numbers (Python `int`/`float` unified,
  modelled exactly as rationals), booleans, strings, and lists.  Lists are
  the mutually inductive `PyList` so that recursion into nested lists is
  structural (and hence computable by the kernel).
* Machine floats are modelled as exact rationals; float literals that denote
  decimal fractions are represented exactly.  Non-finite floats (inf/nan)
  and numeric-literal underscores are outside the model.
* Fallible Python code returns `Option`/an error constructor instead of
  raising; `eval_formula` returns `EvalVal.exn` where the source returns the
  caught exception object.
* All rational arithmetic goes through `mkRat`-based helpers (`qadd`, ...)
  so that concrete runs reduce; bridge lemmas connect them to `+`, `*`, ...
-/

/-! ## Python value domain -/

mutual
/-- A Python runtime value as used by the engine in `src/app.py`:
`None`, a number (`int`/`float`, modelled as an exact rational), a `bool`,
a `str`, or a `list`. -/
inductive PyVal where
  | none : PyVal
  | num (q : Rat) : PyVal
  | bool (b : Bool) : PyVal
  | str (s : String) : PyVal
  | list (xs : PyList) : PyVal
  deriving Repr
/-- A Python list of `PyVal`s, defined mutually with `PyVal` so that
recursion into nested lists is structural. -/
inductive PyList where
  | nil : PyList
  | cons (hd : PyVal) (tl : PyList) : PyList
  deriving Repr
end

/-- Convert a `PyList` into a Lean `List PyVal` (one level, no flattening). -/
def PyList.toList : PyList → List PyVal
  | .nil => []
  | .cons v rest => v :: rest.toList

/-- Convert a Lean `List PyVal` into a `PyList`. -/
def PyList.ofList : List PyVal → PyList
  | [] => .nil
  | v :: rest => .cons v (PyList.ofList rest)

/-! ## Kernel-reducible rational arithmetic

The engine manipulates Python floats.  We model them as `Rat` and implement
the arithmetic by `mkRat`/`Rat.divInt` (which reduce definitionally), with
bridge lemmas to the standard `Rat` operations. -/

/-- Addition on `Rat` via `mkRat`; equals `a + b` (`qadd_eq`). -/
def qadd (a b : Rat) : Rat := mkRat (a.num * b.den + b.num * a.den) (a.den * b.den)

/-- Subtraction on `Rat` via `mkRat`; equals `a - b` (`qsub_eq`). -/
def qsub (a b : Rat) : Rat := mkRat (a.num * b.den - b.num * a.den) (a.den * b.den)

/-- Multiplication on `Rat` via `mkRat`; equals `a * b` (`qmul_eq`). -/
def qmul (a b : Rat) : Rat := mkRat (a.num * b.num) (a.den * b.den)

/-- Negation on `Rat` via `mkRat`. -/
def qneg (a : Rat) : Rat := mkRat (-a.num) a.den

/-- Division on `Rat` via `Rat.divInt`.  Callers check for a zero divisor
first (Python raises `ZeroDivisionError`). -/
def qdiv (a b : Rat) : Rat := Rat.divInt (a.num * b.den) (a.den * b.num)

/-- Integer power on `Rat` (Python `**` with an integral exponent).  For a
negative exponent the fraction is inverted; callers exclude `0 ** negative`. -/
def qpow (a : Rat) (n : Int) : Rat :=
  if 0 ≤ n then mkRat (a.num ^ n.natAbs) (a.den ^ n.natAbs)
  else Rat.divInt ((a.den : Int) ^ n.natAbs) (a.num ^ n.natAbs)

/-- Strictly-less-than on `Rat` as a `Bool` (Python `<` on floats). -/
def qlt (a b : Rat) : Bool := Rat.blt a b

/-- `max` of two rationals as Python computes it over a list:
keep the current maximum unless the new element is strictly greater. -/
def qmax (m x : Rat) : Rat := if qlt m x then x else m

/-! ## Python `str()` of numbers: decimal representation -/

/-- Digits of a natural number, most significant first (fuel-based). -/
def natDigitsGo : Nat → Nat → List Char
  | 0, _ => []
  | _ + 1, 0 => []
  | fuel + 1, n => natDigitsGo fuel (n / 10) ++ [Char.ofNat (48 + n % 10)]

/-- Decimal string of a natural number. -/
def natDigits (n : Nat) : String :=
  if n = 0 then "0" else String.mk (natDigitsGo (n + 1) n)

/-- Smallest `k ≤ 64` such that `d` divides `n * 10 ^ k`, if any.  For a
reduced fraction whose denominator is of the form `2^a * 5^b` (every binary
float is), such a `k` exists. -/
def findDecExp (n d : Nat) : Option Nat :=
  (List.range 65).find? (fun k => (n * 10 ^ k) % d == 0)

/-- Python `repr`/`str` of a nonnegative float value `n / d`, as a decimal
numeral (`"5.0"`, `"0.0125"`, ...).  Values whose denominator is not of the
form `2^a * 5^b` (impossible for binary floats) fall back to a fraction
string.  Scientific notation for very large/small magnitudes is outside the
model. -/
def floatReprNN (n d : Nat) : String :=
  if d = 1 then natDigits n ++ ".0"
  else
    match findDecExp n d with
    | some k =>
      let m := n * 10 ^ k / d
      let frac := m % 10 ^ k
      let fracDigits := natDigitsGo (frac + 1) frac
      natDigits (m / 10 ^ k) ++ "." ++
        String.mk (List.replicate (k - fracDigits.length) '0' ++ fracDigits)
    | Option.none => natDigits n ++ "/" ++ natDigits d

/-- Python `str()` of a float, on our exact-rational model. -/
def floatRepr (q : Rat) : String :=
  if q.num < 0 then "-" ++ floatReprNN q.num.natAbs q.den
  else floatReprNN q.num.natAbs q.den

/-! ## Python string helpers -/

/-- Characters stripped by Python `str.strip()` / matched by `\s`
(the common whitespace characters, including the no-break space). -/
def pyIsSpace (c : Char) : Bool :=
  c == ' ' || c == '\t' || c == '\n' || c == '\r' || c == '\x0b' || c == '\x0c' ||
  c == '\u00A0'

/-- Python `str.strip()` (whitespace from both ends). -/
def pyStrip (s : String) : String :=
  String.mk (((s.toList.dropWhile pyIsSpace).reverse.dropWhile pyIsSpace).reverse)

/-- Does `pat` occur at the head of `text`? -/
def listStartsWith : List Char → List Char → Bool
  | [], _ => true
  | _ :: _, [] => false
  | p :: ps, c :: cs => p == c && listStartsWith ps cs

/-- Python `str.replace(pat, rep)` on char lists: leftmost, non-overlapping,
replace all (fuel-based; fuel bounds the number of scanned positions). -/
def replaceAllGo (pat rep : List Char) : Nat → List Char → List Char
  | 0, cs => cs
  | _ + 1, [] => []
  | fuel + 1, c :: cs =>
    if listStartsWith pat (c :: cs) then
      rep ++ replaceAllGo pat rep fuel (cs.drop (pat.length - 1))
    else
      c :: replaceAllGo pat rep fuel cs

/-- Python `str.replace(pat, rep)` (for the nonempty patterns the source uses). -/
def replaceAll (s pat rep : String) : String :=
  if pat.toList.isEmpty then s
  else String.mk (replaceAllGo pat.toList rep.toList s.toList.length s.toList)

/-- Python `str.strip(c)` for one character: drop it from both ends. -/
def stripCharEnds (c : Char) (s : String) : String :=
  String.mk (((s.toList.dropWhile (· == c)).reverse.dropWhile (· == c)).reverse)

/-- Does the string start with `"="` (Python `startswith`)? -/
def pyStartsWithEq (s : String) : Bool :=
  match s.toList with
  | '=' :: _ => true
  | _ => false

mutual
/-- Python `str()` of an engine value (`str(x)` in the source).
`int`/`float` are unified, so integral numbers print float-style (`"5.0"`). -/
def pyStr : PyVal → String
  | .none => "None"
  | .num q => floatRepr q
  | .bool b => if b then "True" else "False"
  | .str s => s
  | .list xs => "[" ++ pyReprList xs ++ "]"
/-- Python `repr()` of a list element (strings get quoted; escapes are not
modelled). -/
def pyReprItem : PyVal → String
  | .none => "None"
  | .num q => floatRepr q
  | .bool b => if b then "True" else "False"
  | .str s => "'" ++ s ++ "'"
  | .list xs => "[" ++ pyReprList xs ++ "]"
/-- Comma-separated `repr`s of the elements of a Python list. -/
def pyReprList : PyList → String
  | .nil => ""
  | .cons v rest =>
    pyReprItem v ++ (match rest with | .nil => "" | _ => ", " ++ pyReprList rest)
end

mutual
/-- Python `==` on engine values: numbers and booleans compare numerically
(`True == 1`), strings by content, lists elementwise; values of unrelated
types compare unequal. -/
def pyEqB : PyVal → PyVal → Bool
  | .none, .none => true
  | .num a, .num b => a == b
  | .num a, .bool b => a == (if b then (1 : Rat) else 0)
  | .bool a, .num b => (if a then (1 : Rat) else 0) == b
  | .bool a, .bool b => a == b
  | .str a, .str b => a == b
  | .list a, .list b => pyEqListB a b
  | _, _ => false
/-- Python `==` on lists: elementwise, equal length. -/
def pyEqListB : PyList → PyList → Bool
  | .nil, .nil => true
  | .cons a as, .cons b bs => pyEqB a b && pyEqListB as bs
  | _, _ => false
end

/-- Python `bool()` truthiness of an engine value. -/
def pyTruthy : PyVal → Bool
  | .none => false
  | .num q => !(q == (0 : Rat))
  | .bool b => b
  | .str s => !(s == "")
  | .list .nil => false
  | .list _ => true

/-! ## Value Coercion: `coerce_float` (src/app.py lines 72-84) -/

/-- Is `c` a decimal digit? -/
def isDigitCh (c : Char) : Bool := '0' ≤ c && c ≤ '9'

/-- Numeric value of a digit character. -/
def digitVal (c : Char) : Nat := c.toNat - 48

/-- Value of a digit run, most significant first. -/
def digitsToNat (cs : List Char) : Nat := cs.foldl (fun acc c => acc * 10 + digitVal c) 0

/-- Build the exact rational `(intPart.fracDigits) * 10 ^ decExp`. -/
def ratOfDecimal (intPart : Nat) (fracDigits : List Char) (decExp : Int) : Rat :=
  let m : Nat := intPart * 10 ^ fracDigits.length + digitsToNat fracDigits
  let e : Int := decExp - fracDigits.length
  if 0 ≤ e then mkRat ((m : Int) * 10 ^ e.natAbs) 1
  else mkRat (m : Int) (10 ^ e.natAbs)

/-- Model of Python `float(s)` on decimal numerals:
`[+-]? (digits [. digits*]? | . digits+) ([eE] [+-]? digits+)?`, the entire
string consumed, at least one digit.  `inf`/`nan` literals and underscore
separators are outside the model and fail. -/
def parsePyFloat (s : String) : Option Rat :=
  let p0 : Int × List Char :=
    match s.toList with
    | '+' :: t => (1, t)
    | '-' :: t => (-1, t)
    | t => (1, t)
  let sign := p0.1
  let intDigits := p0.2.takeWhile isDigitCh
  let cs1 := p0.2.drop intDigits.length
  let p1 : List Char × List Char :=
    match cs1 with
    | '.' :: t => (t.takeWhile isDigitCh, t.drop (t.takeWhile isDigitCh).length)
    | t => ([], t)
  let fracDigits := p1.1
  let cs2 := p1.2
  if intDigits.isEmpty && fracDigits.isEmpty then Option.none
  else
    match cs2 with
    | [] => some (qmul (mkRat sign 1) (ratOfDecimal (digitsToNat intDigits) fracDigits 0))
    | e :: t =>
      if e == 'e' || e == 'E' then
        let p2 : Int × List Char :=
          match t with
          | '+' :: t2 => (1, t2)
          | '-' :: t2 => (-1, t2)
          | t2 => (1, t2)
        let expDigits := p2.2.takeWhile isDigitCh
        if expDigits.isEmpty then Option.none
        else if (p2.2.drop expDigits.length).isEmpty then
          some (qmul (mkRat sign 1)
            (ratOfDecimal (digitsToNat intDigits) fracDigits (p2.1 * digitsToNat expDigits)))
        else Option.none
      else Option.none

/-- The whitespace/decimal-comma normalization `coerce_float` applies to a
stripped textual input: remove ordinary spaces, remove no-break spaces, then
turn each decimal comma into a decimal point (source line 80). -/
def normalizeNumStr (s : String) : String :=
  replaceAll (replaceAll (replaceAll s " " "") "\u00A0" "") "," "."

/-- `coerce_float` (src/app.py lines 72-84): `None` and empty strings give
absent; native numbers (including `bool`, a subclass of `int` in Python)
pass through; strings are stripped, whitespace-cleaned, comma-normalized and
parsed, absent on failure.  A list input stringifies to `"[...]"`, which
never parses as a float, hence absent. -/
def coerce_float : PyVal → Option Rat
  | .none => Option.none
  | .num q => some q
  | .bool b => some (if b then 1 else 0)
  | .str s =>
    let s1 := pyStrip s
    if s1 = "" then Option.none
    else parsePyFloat (normalizeNumStr s1)
  | .list _ => Option.none

/-! ## Function Library (src/app.py lines 189-227) -/

mutual
/-- `_excel_sum` (src/app.py lines 189-198): walk the argument list; a list
element contributes its own `_excel_sum`; a scalar contributes its coercion
when numeric and is ignored otherwise. -/
def excel_sum : PyList → Rat
  | .nil => 0
  | .cons v rest =>
    match excel_sum_item v with
    | some n => qadd n (excel_sum rest)
    | Option.none => excel_sum rest
/-- The contribution of one `_excel_sum` argument: a nested list sums
recursively, a scalar coerces with `coerce_float`. -/
def excel_sum_item : PyVal → Option Rat
  | .list xs => some (excel_sum xs)
  | v => coerce_float v
end

/-- The numeric values `_excel_max` (src/app.py lines 201-213) collects: for
a list argument, the coercions of its direct elements (one level only — an
element that is itself a list coerces to absent); for a scalar argument, its
coercion. -/
def collectMaxNums : PyList → List Rat
  | .nil => []
  | .cons (.list xs) rest => xs.toList.filterMap coerce_float ++ collectMaxNums rest
  | .cons v rest =>
    match coerce_float v with
    | some n => n :: collectMaxNums rest
    | Option.none => collectMaxNums rest

/-- `_excel_max` (src/app.py lines 201-213): maximum of the collected
numeric values, `0.0` if there are none. -/
def excel_max (args : PyList) : Rat :=
  match collectMaxNums args with
  | [] => 0
  | n :: rest => rest.foldl qmax n

/-- `_excel_if` (src/app.py lines 216-217): `a if bool(cond) else b`. -/
def excel_if (cond a b : PyVal) : PyVal := if pyTruthy cond then a else b

/-- A Python object as tested by `isinstance(x, Exception)`: either an
engine value or an exception object. -/
inductive PyObj where
  | val (v : PyVal) : PyObj
  | exc : PyObj

/-- `IFERROR` as defined inside `eval_formula` (src/app.py lines 339-341,
and the equivalent `_excel_iferror` at lines 220-221): return the first
argument unless it is an exception object, else the fallback. -/
def excel_iferror (x fallback : PyObj) : PyObj :=
  match x with
  | .exc => fallback
  | _ => x

/-- `_excel_countif` (src/app.py lines 224-227): count the values whose
`str()` form equals the `str()` form of the criterion (exact match only). -/
def excel_countif (values : PyList) (criterion : PyVal) : Nat :=
  (values.toList.filter (fun v => pyStr v == pyStr criterion)).length

/-! ## Address Model (src/app.py lines 39-40, 154-177) -/

/-- Is `c` an uppercase ASCII letter? -/
def isUpperAZ (c : Char) : Bool := 'A' ≤ c && c ≤ 'Z'

/-- The first match of the pattern "1 to 3 uppercase letters" in `cs`
(`re.findall` first element): the first three (or fewer) characters of the
first uppercase run. -/
def firstUpperRunCap3 (cs : List Char) : List Char :=
  ((cs.dropWhile (fun c => !(isUpperAZ c))).takeWhile isUpperAZ).take 3

/-- The first run of decimal digits in `cs` (`re.findall` first element for
a digits-plus pattern). -/
def firstDigitRun (cs : List Char) : List Char :=
  (cs.dropWhile (fun c => !(isDigitCh c))).takeWhile isDigitCh

/-- openpyxl `column_index_from_string`: base-26 value of a column code
(`"A"` is 1). -/
def column_index_from_string (s : String) : Nat :=
  s.toList.foldl (fun acc c => acc * 26 + (c.toNat - 64)) 0

/-- Helper for `get_column_letter` (bijective base-26 digits). -/
def get_column_letter_go : Nat → Nat → List Char
  | 0, _ => []
  | fuel + 1, n =>
    if n = 0 then []
    else get_column_letter_go fuel ((n - 1) / 26) ++ [Char.ofNat (65 + (n - 1) % 26)]

/-- openpyxl `get_column_letter`: the column code of a 1-based column index. -/
def get_column_letter (n : Nat) : String := String.mk (get_column_letter_go n n)

/-- `a1` (src/app.py lines 39-40): the A1 text of a (row, column) pair. -/
def a1 (row col : Nat) : String := get_column_letter col ++ natDigits row

/-- `_strip_dollars` (src/app.py lines 157-158). -/
def strip_dollars (s : String) : String := replaceAll s "$" ""

/-- The column-letters and row-number tokens of an address text, via the
first letter match (capped at three) and the first digit run; `none` models
the `IndexError` raised when a token is missing. -/
def addrParts (s : String) : Option (String × Nat) :=
  let ls := firstUpperRunCap3 s.toList
  let ds := firstDigitRun s.toList
  if ls.isEmpty || ds.isEmpty then Option.none
  else some (String.mk ls, digitsToNat ds)

/-- `_expand_range` (src/app.py lines 166-177): all addresses of the
rectangle spanned by the two corners, row-major, rows and columns
min/max-normalized. -/
def expandRange (a b : String) : Option (List String) :=
  match addrParts a, addrParts b with
  | some pa, some pb =>
    let ca := column_index_from_string pa.1
    let cb := column_index_from_string pb.1
    let rlo := min pa.2 pb.2
    let rhi := max pa.2 pb.2
    let clo := min ca cb
    let chi := max ca cb
    some ((List.range' rlo (rhi + 1 - rlo)).flatMap fun r =>
      (List.range' clo (chi + 1 - clo)).map fun c => a1 r c)
  | _, _ => Option.none

/-! ## Value Store, worksheets, evaluation context (src/app.py lines 147-151) -/

/-- The Value Store: Python dict from A1 address to value, insertion
ordered, modelled as an association list. -/
abbrev Store := List (String × PyVal)

/-- Dict lookup, `none` when the key is missing. -/
def storeLookup : Store → String → Option PyVal
  | [], _ => Option.none
  | (k, v) :: rest, a => if k == a then some v else storeLookup rest a

/-- Python `dict.get(addr)`: defaults to `None` when missing. -/
def storeGet (s : Store) (a : String) : PyVal := (storeLookup s a).getD .none

/-- Python `dict[addr] = v`: update in place, or append a new key. -/
def storeSet : Store → String → PyVal → Store
  | [], a, v => [(a, v)]
  | (k, w) :: rest, a, v =>
    if k == a then (a, v) :: rest else (k, w) :: storeSet rest a v

/-- An openpyxl worksheet, read through `ws.cell(row, column).value`
(1-based); absent cells read as `None`. -/
abbrev Worksheet := Nat → Nat → PyVal

/-- An openpyxl workbook: worksheets by sheet name. -/
abbrev Workbook := String → Worksheet

/-- `EvalContext` (src/app.py lines 147-151). -/
structure EvalContext where
  wb : Workbook
  sheet : String
  values : Store

/-- `ws[addr].value` for an A1 address string (used by `recalc_block`);
malformed addresses read as empty. -/
def wsGetA1 (ws : Worksheet) (a : String) : PyVal :=
  match addrParts a with
  | some p => ws p.2 (column_index_from_string p.1)
  | Option.none => .none

/-- `_get` (src/app.py lines 180-182): strip absolute markers, then read the
store, absent when unset. -/
def ctxGet (ctx : EvalContext) (ref : String) : PyVal :=
  storeGet ctx.values (strip_dollars ref)

/-- The result of evaluating one expression: a value, or the caught
exception (`eval_formula` returns the exception object; no function of the
environment ever returns one as a value). -/
inductive EvalVal where
  | ok (v : PyVal) : EvalVal
  | exn : EvalVal
  deriving Repr

/-! ## Reference Resolver: `_excel_vlookup` (src/app.py lines 230-261) -/

/-- Split a char list at every occurrence of `sep` (Python `str.split`). -/
def splitOnCharGo (sep : Char) : List Char → List Char → List (List Char)
  | [], acc => [acc.reverse]
  | c :: cs, acc =>
    if c == sep then acc.reverse :: splitOnCharGo sep cs []
    else splitOnCharGo sep cs (c :: acc)

/-- Python `str.split(sep)` for a one-character separator. -/
def splitOnChar (sep : Char) (cs : List Char) : List (List Char) := splitOnCharGo sep cs []

/-- `_parse_range` (src/app.py lines 161-163): split on the colon into
exactly two parts and strip absolute markers from each; `none` models the
unpacking `ValueError` for any other number of parts. -/
def parse_range (rng : String) : Option (String × String) :=
  match splitOnChar ':' rng.toList with
  | [a, b] => some (strip_dollars (String.mk a), strip_dollars (String.mk b))
  | _ => Option.none

/-- `table_range.split("!", 1)`: the text before the first bang and the text
after it. -/
def splitFirstBang (s : String) : String × String :=
  let pre := s.toList.takeWhile (fun c => !(c == '!'))
  (String.mk pre, String.mk (s.toList.drop (pre.length + 1)))

/-- Python `"!" in s`. -/
def strContainsBang (s : String) : Bool := s.toList.any (· == '!')

/-- `lookup_str` (src/app.py line 252): the stripped string form, or the
empty string for `None`. -/
def vlookupKeyStr : PyVal → String
  | .none => ""
  | v => pyStrip (pyStr v)

/-- The row loop of `_excel_vlookup` (src/app.py lines 254-261): scan the
given rows in order; on the first row whose leftmost-column value has the
sought string form, either read `col_index - 1` columns right of the
leftmost column, or return absent when that falls outside `[ca, cb]`;
absent when no row matches. -/
def vlookupScan (wb : Workbook) (sheet : String) (lookupStr : String)
    (ca cb : Nat) (colIdx : Int) : List Nat → PyVal
  | [] => .none
  | r :: rest =>
    if pyStrip (pyStr (wb sheet r ca)) == lookupStr then
      let target : Int := (ca : Int) + (colIdx - 1)
      if target < (ca : Int) || (cb : Int) < target then .none
      else wb sheet r target.toNat
    else vlookupScan wb sheet lookupStr ca cb colIdx rest

/-- `_excel_vlookup` (src/app.py lines 230-261): resolve an optional
`sheet!` prefix (strip whitespace, quotes and the `[1]` workbook marker),
parse the `a:b` range, and scan its rows top-to-bottom. -/
def excel_vlookup (ctx : EvalContext) (lookup : PyVal) (tableRange : String)
    (colIdx : Int) : EvalVal :=
  let sr : String × String :=
    if strContainsBang tableRange then
      let p := splitFirstBang tableRange
      (replaceAll (stripCharEnds '\'' (pyStrip p.1)) "[1]" "", p.2)
    else (ctx.sheet, tableRange)
  match parse_range sr.2 with
  | Option.none => .exn
  | some refs =>
    match addrParts refs.1, addrParts refs.2 with
    | some pa, some pb =>
      let ca := column_index_from_string pa.1
      let cb := column_index_from_string pb.1
      .ok (vlookupScan ctx.wb sr.1 (vlookupKeyStr lookup) ca cb colIdx
            (List.range' pa.2 (pb.2 + 1 - pa.2)))
    | _, _ => .exn

/-! ## Formula Transformer: `_transform_formula` (src/app.py lines 264-318) -/

/-- Word characters for the regex word boundary and for identifiers:
ASCII alphanumerics, the underscore, and (approximating the unicode-aware
Python `\w`) every character above 127. -/
def isWordChar (c : Char) : Bool :=
  isUpperAZ c || ('a' ≤ c && c ≤ 'z') || isDigitCh c || c == '_' || 127 < c.toNat

/-- Uppercase an ASCII letter (for case-insensitive matching). -/
def toUpperCh (c : Char) : Char :=
  if 'a' ≤ c && c ≤ 'z' then Char.ofNat (c.toNat - 32) else c

/-- Case-insensitive prefix test. -/
def listStartsWithCI : List Char → List Char → Bool
  | [], _ => true
  | _ :: _, [] => false
  | p :: ps, c :: cs => toUpperCh p == toUpperCh c && listStartsWithCI ps cs

/-- Match the address pattern (optional dollar, one to three uppercase
letters, optional dollar, one or more digits) at the head of `cs`; returns
the raw matched characters (dollars included) and the rest.  A run of more
than three uppercase letters cannot match here, because after backtracking a
letter would still follow where a digit is required. -/
def matchAddrAt (cs : List Char) : Option (List Char × List Char) :=
  let p0 : List Char × List Char :=
    match cs with
    | '$' :: t => (['$'], t)
    | t => ([], t)
  let letters := p0.2.takeWhile isUpperAZ
  if letters.length = 0 || 3 < letters.length then Option.none
  else
    let p1 : List Char × List Char :=
      match p0.2.drop letters.length with
      | '$' :: t => (['$'], t)
      | t => ([], t)
    let digits := p1.2.takeWhile isDigitCh
    if digits.isEmpty then Option.none
    else some (p0.1 ++ letters ++ p1.1 ++ digits, p1.2.drop digits.length)

/-- Match `address colon address` (whitespace allowed around the colon) at
the head of `cs`; on success return the `RNG('a','b')` replacement (groups
dollar-stripped) and the rest. -/
def matchRangeAt (cs : List Char) : Option (List Char × List Char) :=
  match matchAddrAt cs with
  | Option.none => Option.none
  | some m1 =>
    match m1.2.dropWhile pyIsSpace with
    | ':' :: r2 =>
      match matchAddrAt (r2.dropWhile pyIsSpace) with
      | Option.none => Option.none
      | some m2 =>
        some ("RNG('".toList ++ m1.1.filter (fun c => !(c == '$')) ++ "','".toList
              ++ m2.1.filter (fun c => !(c == '$')) ++ "')".toList, m2.2)
    | _ => Option.none

/-- The range rewrite (src/app.py lines 285-289): substitute every
`addr:addr` occurrence, scanning left to right, non-overlapping. -/
def rangeSubGo : Nat → List Char → List Char
  | 0, cs => cs
  | _ + 1, [] => []
  | fuel + 1, c :: cs =>
    match matchRangeAt (c :: cs) with
    | some m => m.1 ++ rangeSubGo fuel m.2
    | Option.none => c :: rangeSubGo fuel cs

/-- The bare-address rewrite (src/app.py lines 292-294 and 304): substitute
`CELL('ref')` (dollar-stripped) for every address-pattern occurrence. -/
def cellSubGo : Nat → List Char → List Char
  | 0, cs => cs
  | _ + 1, [] => []
  | fuel + 1, c :: cs =>
    match matchAddrAt (c :: cs) with
    | some m =>
      "CELL('".toList ++ m.1.filter (fun d => !(d == '$')) ++ "')".toList
        ++ cellSubGo fuel m.2
    | Option.none => c :: cellSubGo fuel cs

/-- The string-protection pass (src/app.py lines 297-303): replace every
double-quoted literal (quote pairs, shortest spans) with `__STRn__` and
collect the literals (quotes included) in order. -/
def protectGo : Nat → Nat → List Char → (List Char × List String)
  | 0, _, cs => (cs, [])
  | _ + 1, _, [] => ([], [])
  | fuel + 1, i, '"' :: cs =>
    if cs.any (· == '"') then
      let inner := cs.takeWhile (fun c => !(c == '"'))
      let r := protectGo fuel (i + 1) (cs.drop (inner.length + 1))
      ("__STR".toList ++ (natDigits i).toList ++ "__".toList ++ r.1,
       ("\"" ++ String.mk inner ++ "\"") :: r.2)
    else
      let r := protectGo fuel i cs
      ('"' :: r.1, r.2)
  | fuel + 1, i, c :: cs =>
    let r := protectGo fuel i cs
    (c :: r.1, r.2)

/-- The literal-restoration loop (src/app.py lines 306-308):
`f.replace("__STRi__", s)` for each collected literal in order. -/
def restoreGo : Nat → String → List String → String
  | _, f, [] => f
  | i, f, s :: rest => restoreGo (i + 1) (replaceAll f ("__STR" ++ natDigits i ++ "__") s) rest

/-- Whole-word case-insensitive replacement with word boundaries on both
sides (the TRUE/FALSE normalization, src/app.py lines 278-279).  The
boolean argument tracks whether the previous scanned character was a word
character. -/
def wordSubGo (pat rep : List Char) : Nat → Bool → List Char → List Char
  | 0, _, cs => cs
  | _ + 1, _, [] => []
  | fuel + 1, prevW, c :: cs =>
    if !prevW && listStartsWithCI pat (c :: cs)
        && (match (c :: cs).drop pat.length with
            | [] => true
            | d :: _ => !isWordChar d) then
      rep ++ wordSubGo pat rep fuel true ((c :: cs).drop pat.length)
    else
      c :: wordSubGo pat rep fuel (isWordChar c) cs

/-- Match a function name (case-insensitive, word boundary handled by the
caller) followed by optional whitespace and an opening parenthesis; returns
the rest after the parenthesis. -/
def matchFuncAt (pat : List Char) (cs : List Char) : Option (List Char) :=
  if listStartsWithCI pat cs then
    match (cs.drop pat.length).dropWhile pyIsSpace with
    | '(' :: r => some r
    | _ => Option.none
  else Option.none

/-- One function-name normalization pass (src/app.py lines 311-316):
rewrite every boundary-preceded case-insensitive `name (` into the
canonical `NAME(`. -/
def funcSubGo (pat : List Char) : Nat → Bool → List Char → List Char
  | 0, _, cs => cs
  | _ + 1, _, [] => []
  | fuel + 1, prevW, c :: cs =>
    match (if prevW then Option.none else matchFuncAt pat (c :: cs)) with
    | some rest => pat ++ '(' :: funcSubGo pat fuel false rest
    | Option.none => c :: funcSubGo pat fuel (isWordChar c) cs

/-- String-level wrapper for the range rewrite. -/
def rangeSub (s : String) : String := String.mk (rangeSubGo s.toList.length s.toList)

/-- String-level wrapper for the bare-address rewrite. -/
def cellSub (s : String) : String := String.mk (cellSubGo s.toList.length s.toList)

/-- String-level wrapper for the protection pass. -/
def protectStrings (s : String) : String × List String :=
  let r := protectGo s.toList.length 0 s.toList
  (String.mk r.1, r.2)

/-- String-level wrapper for the whole-word replacement. -/
def wordSub (s pat rep : String) : String :=
  String.mk (wordSubGo pat.toList rep.toList s.toList.length false s.toList)

/-- String-level wrapper for one function-name normalization. -/
def funcSub (s pat : String) : String :=
  String.mk (funcSubGo pat.toList s.toList.length false s.toList)

/-- `_transform_formula` (src/app.py lines 264-318), step for step: strip,
drop the formula marker, power operator, boolean literals, workbook marker,
range rewrite, string protection, bare-address rewrite, restoration, and
function-name normalization. -/
def transform_formula (formula : String) : String :=
  let f := pyStrip formula
  let f := if pyStartsWithEq f then String.mk (f.toList.drop 1) else f
  let f := replaceAll f "^" "**"
  let f := wordSub f "TRUE" "True"
  let f := wordSub f "FALSE" "False"
  let f := replaceAll f "[1]" ""
  let f := rangeSub f
  let p := protectStrings f
  let f := cellSub p.1
  let f := restoreGo 0 f p.2
  let f := funcSub f "SUM"
  let f := funcSub f "MAX"
  let f := funcSub f "IFERROR"
  let f := funcSub f "IF"
  let f := funcSub f "COUNTIF"
  let f := funcSub f "VLOOKUP"
  f

/-! ## The restricted Python expression evaluated by `eval_formula`

`eval_formula` (src/app.py lines 321-366) hands the transformed text to a
restricted `eval` with no builtins and the environment
CELL / RNG / SUM / MAX / IF / IFERROR / COUNTIF / VLOOKUP.  We model that
`eval` by a tokenizer, a recursive-descent parser for the expression subset
the transformer emits (the source docstring: the operators plus minus star
slash double-star and comparisons, literals, names and calls), and an
evaluator over the resulting tree.  A failed parse models `SyntaxError`;
evaluation failures model the runtime exceptions; each surfaces as
`EvalVal.exn`.  Chained comparisons and string escapes are outside the
model. -/

/-- A token of the restricted expression language. -/
inductive Tok where
  | num (q : Rat) : Tok
  | strlit (s : String) : Tok
  | ident (s : String) : Tok
  | plus : Tok
  | minus : Tok
  | star : Tok
  | slash : Tok
  | dstar : Tok
  | lpar : Tok
  | rpar : Tok
  | comma : Tok
  | ltT : Tok
  | gtT : Tok
  | leT : Tok
  | geT : Tok
  | eq2 : Tok
  | neT : Tok
  deriving Repr, DecidableEq

/-- Lex the exponent suffix of a numeric literal (sign and digits), if
well-formed. -/
def lexExp (t : List Char) : Option (Int × List Char) :=
  let p : Int × List Char :=
    match t with
    | '+' :: t2 => (1, t2)
    | '-' :: t2 => (-1, t2)
    | t2 => (1, t2)
  let ds := p.2.takeWhile isDigitCh
  if ds.isEmpty then Option.none
  else some (p.1 * digitsToNat ds, p.2.drop ds.length)

/-- Lex a numeric literal (digits, optional fraction, optional exponent),
returning its exact value and the rest; `none` models the tokenizer
error for a malformed literal (including a literal run into a word
character). -/
def lexNumber (cs : List Char) : Option (Rat × List Char) :=
  let intD := cs.takeWhile isDigitCh
  let cs1 := cs.drop intD.length
  let p1 : List Char × List Char :=
    match cs1 with
    | '.' :: t => (t.takeWhile isDigitCh, t.drop (t.takeWhile isDigitCh).length)
    | t => ([], t)
  let fracD := p1.1
  let cs2 := p1.2
  if intD.isEmpty && fracD.isEmpty then Option.none
  else
    let withExp : Option (Int × List Char) :=
      match cs2 with
      | 'e' :: t => lexExp t
      | 'E' :: t => lexExp t
      | t => some (0, t)
    match withExp with
    | Option.none => Option.none
    | some (e, rest) =>
      match rest with
      | c :: _ => if isWordChar c then Option.none else some (ratOfDecimal (digitsToNat intD) fracD e, rest)
      | [] => some (ratOfDecimal (digitsToNat intD) fracD e, rest)

/-- Tokenize the transformed expression text; `none` models `SyntaxError`. -/
def tokenizeGo : Nat → List Char → Option (List Tok)
  | 0, _ => Option.none
  | _ + 1, [] => some []
  | fuel + 1, c :: cs =>
    if pyIsSpace c then tokenizeGo fuel cs
    else if isDigitCh c || (c == '.' && (match cs with | d :: _ => isDigitCh d | [] => false)) then
      match lexNumber (c :: cs) with
      | some (q, rest) => (tokenizeGo fuel rest).map (Tok.num q :: ·)
      | Option.none => Option.none
    else if c == '\'' || c == '"' then
      let inner := cs.takeWhile (fun d => !(d == c))
      if inner.length == cs.length then Option.none
      else (tokenizeGo fuel (cs.drop (inner.length + 1))).map (Tok.strlit (String.mk inner) :: ·)
    else if isUpperAZ c || ('a' ≤ c && c ≤ 'z') || c == '_' || 127 < c.toNat then
      let rest := cs.takeWhile isWordChar
      (tokenizeGo fuel (cs.drop rest.length)).map (Tok.ident (String.mk (c :: rest)) :: ·)
    else if c == '*' then
      match cs with
      | '*' :: t => (tokenizeGo fuel t).map (Tok.dstar :: ·)
      | t => (tokenizeGo fuel t).map (Tok.star :: ·)
    else if c == '=' then
      match cs with
      | '=' :: t => (tokenizeGo fuel t).map (Tok.eq2 :: ·)
      | _ => Option.none
    else if c == '!' then
      match cs with
      | '=' :: t => (tokenizeGo fuel t).map (Tok.neT :: ·)
      | _ => Option.none
    else if c == '<' then
      match cs with
      | '=' :: t => (tokenizeGo fuel t).map (Tok.leT :: ·)
      | t => (tokenizeGo fuel t).map (Tok.ltT :: ·)
    else if c == '>' then
      match cs with
      | '=' :: t => (tokenizeGo fuel t).map (Tok.geT :: ·)
      | t => (tokenizeGo fuel t).map (Tok.gtT :: ·)
    else if c == '+' then (tokenizeGo fuel cs).map (Tok.plus :: ·)
    else if c == '-' then (tokenizeGo fuel cs).map (Tok.minus :: ·)
    else if c == '/' then (tokenizeGo fuel cs).map (Tok.slash :: ·)
    else if c == '(' then (tokenizeGo fuel cs).map (Tok.lpar :: ·)
    else if c == ')' then (tokenizeGo fuel cs).map (Tok.rpar :: ·)
    else if c == ',' then (tokenizeGo fuel cs).map (Tok.comma :: ·)
    else Option.none

/-- A binary operator of the restricted expression language. -/
inductive BinOp where
  | add | sub | mul | div | pow | beqO | bneO | bltO | bleO | bgtO | bgeO
  deriving Repr, DecidableEq

/-- A unary operator of the restricted expression language. -/
inductive UnOp where
  | neg | pos
  deriving Repr, DecidableEq

mutual
/-- An expression of the restricted language `eval` receives. -/
inductive Expr where
  | lit (v : PyVal) : Expr
  | name (s : String) : Expr
  | call (fn : String) (args : ExprList) : Expr
  | un (op : UnOp) (e : Expr) : Expr
  | bin (op : BinOp) (a b : Expr) : Expr
/-- An argument list, defined mutually with `Expr` for structural
recursion. -/
inductive ExprList where
  | nil : ExprList
  | cons (hd : Expr) (tl : ExprList) : ExprList
end

/-- The comparison operator denoted by a token, if any. -/
def cmpOfTok : Tok → Option BinOp
  | .eq2 => some .beqO
  | .neT => some .bneO
  | .ltT => some .bltO
  | .leT => some .bleO
  | .gtT => some .bgtO
  | .geT => some .bgeO
  | _ => Option.none

mutual
/-- Parse a (single) comparison. -/
def parseCmpE : Nat → List Tok → Option (Expr × List Tok)
  | 0, _ => Option.none
  | fuel + 1, ts =>
    match parseArithE fuel ts with
    | Option.none => Option.none
    | some (a, ts1) =>
      match ts1 with
      | t :: ts2 =>
        match cmpOfTok t with
        | some op =>
          match parseArithE fuel ts2 with
          | Option.none => Option.none
          | some (b, ts3) => some (.bin op a b, ts3)
        | Option.none => some (a, ts1)
      | [] => some (a, ts1)
/-- Parse a sum of terms (left-associated). -/
def parseArithE : Nat → List Tok → Option (Expr × List Tok)
  | 0, _ => Option.none
  | fuel + 1, ts =>
    match parseTermE fuel ts with
    | some (a, ts1) => parseArithRest fuel a ts1
    | Option.none => Option.none
/-- Continuation of a sum. -/
def parseArithRest : Nat → Expr → List Tok → Option (Expr × List Tok)
  | 0, _, _ => Option.none
  | fuel + 1, acc, ts =>
    match ts with
    | .plus :: ts1 =>
      match parseTermE fuel ts1 with
      | some (b, ts2) => parseArithRest fuel (.bin .add acc b) ts2
      | Option.none => Option.none
    | .minus :: ts1 =>
      match parseTermE fuel ts1 with
      | some (b, ts2) => parseArithRest fuel (.bin .sub acc b) ts2
      | Option.none => Option.none
    | _ => some (acc, ts)
/-- Parse a product of unary expressions (left-associated). -/
def parseTermE : Nat → List Tok → Option (Expr × List Tok)
  | 0, _ => Option.none
  | fuel + 1, ts =>
    match parseUnaryE fuel ts with
    | some (a, ts1) => parseTermRest fuel a ts1
    | Option.none => Option.none
/-- Continuation of a product. -/
def parseTermRest : Nat → Expr → List Tok → Option (Expr × List Tok)
  | 0, _, _ => Option.none
  | fuel + 1, acc, ts =>
    match ts with
    | .star :: ts1 =>
      match parseUnaryE fuel ts1 with
      | some (b, ts2) => parseTermRest fuel (.bin .mul acc b) ts2
      | Option.none => Option.none
    | .slash :: ts1 =>
      match parseUnaryE fuel ts1 with
      | some (b, ts2) => parseTermRest fuel (.bin .div acc b) ts2
      | Option.none => Option.none
    | _ => some (acc, ts)
/-- Parse unary signs (binding looser than the power operator, as in
Python). -/
def parseUnaryE : Nat → List Tok → Option (Expr × List Tok)
  | 0, _ => Option.none
  | fuel + 1, ts =>
    match ts with
    | .minus :: ts1 =>
      match parseUnaryE fuel ts1 with
      | some (e, ts2) => some (.un .neg e, ts2)
      | Option.none => Option.none
    | .plus :: ts1 =>
      match parseUnaryE fuel ts1 with
      | some (e, ts2) => some (.un .pos e, ts2)
      | Option.none => Option.none
    | _ => parsePowE fuel ts
/-- Parse a power (right-associated; the exponent is a unary expression). -/
def parsePowE : Nat → List Tok → Option (Expr × List Tok)
  | 0, _ => Option.none
  | fuel + 1, ts =>
    match parseAtomE fuel ts with
    | some (a, .dstar :: ts1) =>
      match parseUnaryE fuel ts1 with
      | some (b, ts2) => some (.bin .pow a b, ts2)
      | Option.none => Option.none
    | some (a, ts1) => some (a, ts1)
    | Option.none => Option.none
/-- Parse an atom: a literal, a name, a call, or a parenthesized
expression. -/
def parseAtomE : Nat → List Tok → Option (Expr × List Tok)
  | 0, _ => Option.none
  | _ + 1, .num q :: ts => some (.lit (.num q), ts)
  | _ + 1, .strlit s :: ts => some (.lit (.str s), ts)
  | fuel + 1, .ident s :: ts =>
    if s == "True" then some (.lit (.bool true), ts)
    else if s == "False" then some (.lit (.bool false), ts)
    else if s == "None" then some (.lit .none, ts)
    else
      (match ts with
       | .lpar :: ts1 =>
         match parseArgsE fuel ts1 with
         | some (args, ts2) => some (.call s args, ts2)
         | Option.none => Option.none
       | _ => some (.name s, ts))
  | fuel + 1, .lpar :: ts =>
    (match parseCmpE fuel ts with
     | some (e, .rpar :: ts1) => some (e, ts1)
     | _ => Option.none)
  | _, _ => Option.none
/-- Parse a call argument list up to the closing parenthesis. -/
def parseArgsE : Nat → List Tok → Option (ExprList × List Tok)
  | 0, _ => Option.none
  | _ + 1, .rpar :: ts => some (.nil, ts)
  | fuel + 1, ts =>
    match parseCmpE fuel ts with
    | some (e, .comma :: ts1) =>
      (match parseArgsE fuel ts1 with
       | some (es, ts2) => some (.cons e es, ts2)
       | Option.none => Option.none)
    | some (e, .rpar :: ts1) => some (.cons e .nil, ts1)
    | _ => Option.none
end

/-- Parse a complete transformed expression; `none` models `SyntaxError`. -/
def parseExpr (s : String) : Option Expr :=
  match tokenizeGo (s.toList.length + 1) s.toList with
  | Option.none => Option.none
  | some ts =>
    match parseCmpE ((ts.length + 1) * 8) ts with
    | some (e, []) => some e
    | _ => Option.none

/-! ## Evaluation of the restricted expression -/

/-- The numeric view Python arithmetic takes of a value: numbers pass
through, booleans count as 0/1, anything else is not numeric. -/
def numish : PyVal → Option Rat
  | .num q => some q
  | .bool b => some (if b then 1 else 0)
  | _ => Option.none

/-- Lexicographic strictly-less-than on char lists (Python string `<`). -/
def charsLt : List Char → List Char → Bool
  | [], [] => false
  | [], _ :: _ => true
  | _ :: _, [] => false
  | a :: as, b :: bs => if a == b then charsLt as bs else Nat.blt a.toNat b.toNat

/-- Python list concatenation. -/
def pyListAppend : PyList → PyList → PyList
  | .nil, ys => ys
  | .cons x xs, ys => .cons x (pyListAppend xs ys)

/-- Evaluate a unary operator (`TypeError` on non-numeric operands). -/
def evalUn (op : UnOp) (v : PyVal) : EvalVal :=
  match op with
  | .neg =>
    match numish v with
    | some x => .ok (.num (qneg x))
    | Option.none => .exn
  | .pos =>
    match numish v with
    | some x => .ok (.num x)
    | Option.none => .exn

/-- Evaluate a binary operator with Python semantics on our value domain:
numeric arithmetic (booleans as 0/1), string/list concatenation for `+`,
`ZeroDivisionError` on zero divisors, equality via Python `==`, ordering on
numbers and on strings; type mismatches raise (model `.exn`).  Power with a
non-integral exponent and sequence repetition are outside the model. -/
def evalBin (op : BinOp) (a b : PyVal) : EvalVal :=
  match op with
  | .add =>
    (match numish a, numish b with
     | some x, some y => .ok (.num (qadd x y))
     | _, _ =>
       match a, b with
       | .str x, .str y => .ok (.str (x ++ y))
       | .list x, .list y => .ok (.list (pyListAppend x y))
       | _, _ => .exn)
  | .sub =>
    (match numish a, numish b with
     | some x, some y => .ok (.num (qsub x y))
     | _, _ => .exn)
  | .mul =>
    (match numish a, numish b with
     | some x, some y => .ok (.num (qmul x y))
     | _, _ => .exn)
  | .div =>
    (match numish a, numish b with
     | some x, some y => if y == (0 : Rat) then .exn else .ok (.num (qdiv x y))
     | _, _ => .exn)
  | .pow =>
    (match numish a, numish b with
     | some x, some y =>
       if y.den == 1 then
         if x == (0 : Rat) && y.num < 0 then .exn else .ok (.num (qpow x y.num))
       else .exn
     | _, _ => .exn)
  | .beqO => .ok (.bool (pyEqB a b))
  | .bneO => .ok (.bool (!pyEqB a b))
  | .bltO =>
    (match numish a, numish b with
     | some x, some y => .ok (.bool (qlt x y))
     | _, _ =>
       match a, b with
       | .str x, .str y => .ok (.bool (charsLt x.toList y.toList))
       | _, _ => .exn)
  | .bleO =>
    (match numish a, numish b with
     | some x, some y => .ok (.bool (!qlt y x))
     | _, _ =>
       match a, b with
       | .str x, .str y => .ok (.bool (!charsLt y.toList x.toList))
       | _, _ => .exn)
  | .bgtO =>
    (match numish a, numish b with
     | some x, some y => .ok (.bool (qlt y x))
     | _, _ =>
       match a, b with
       | .str x, .str y => .ok (.bool (charsLt y.toList x.toList))
       | _, _ => .exn)
  | .bgeO =>
    (match numish a, numish b with
     | some x, some y => .ok (.bool (!qlt x y))
     | _, _ =>
       match a, b with
       | .str x, .str y => .ok (.bool (!charsLt x.toList y.toList))
       | _, _ => .exn)

/-- Python `int(x)` (used for the VLOOKUP column index): floats truncate
toward zero, booleans give 0/1, strings parse as signed integers;
everything else raises. -/
def pyToInt : PyVal → Option Int
  | .num q => some (Int.tdiv q.num (q.den : Int))
  | .bool b => some (if b then 1 else 0)
  | .str s =>
    let cs := (pyStrip s).toList
    let p : Int × List Char :=
      match cs with
      | '+' :: t => (1, t)
      | '-' :: t => (-1, t)
      | t => (1, t)
    let ds := p.2.takeWhile isDigitCh
    if ds.isEmpty || !(p.2.drop ds.length).isEmpty then Option.none
    else some (p.1 * digitsToNat ds)
  | _ => Option.none

/-- The `VLOOKUP` environment function (src/app.py lines 348-349): the
table reference must be a string (otherwise the bang test raises) and the
column index must convert with `int()`. -/
def vlookupCall (ctx : EvalContext) (lk tr ci : PyVal) : EvalVal :=
  match tr with
  | .str rng =>
    (match pyToInt ci with
     | some n => excel_vlookup ctx lk rng n
     | Option.none => .exn)
  | _ => .exn

/-- Dispatch one call of the evaluation environment (src/app.py lines
324-360).  Unknown names model `NameError`; arity mismatches model
`TypeError`; each yields `.exn`. -/
def applyFn (ctx : EvalContext) (fn : String) (args : PyList) : EvalVal :=
  if fn == "CELL" then
    match args with
    | .cons (.str ref) .nil => .ok (ctxGet ctx ref)
    | _ => .exn
  else if fn == "RNG" then
    match args with
    | .cons (.str a) (.cons (.str b) .nil) =>
      (match expandRange a b with
       | some refs => .ok (.list (PyList.ofList (refs.map (fun r => ctxGet ctx r))))
       | Option.none => .exn)
    | _ => .exn
  else if fn == "SUM" then .ok (.num (excel_sum args))
  else if fn == "MAX" then .ok (.num (excel_max args))
  else if fn == "IF" then
    match args with
    | .cons c (.cons a (.cons b .nil)) => .ok (excel_if c a b)
    | _ => .exn
  else if fn == "IFERROR" then
    match args with
    | .cons x (.cons fb .nil) =>
      (match excel_iferror (.val x) (.val fb) with
       | .val v => .ok v
       | .exc => .exn)
    | _ => .exn
  else if fn == "COUNTIF" then
    match args with
    | .cons vs (.cons crit .nil) =>
      let lst : PyList := match vs with | .list xs => xs | v => .cons v .nil
      .ok (.num (mkRat (excel_countif lst crit) 1))
    | _ => .exn
  else if fn == "VLOOKUP" then
    match args with
    | .cons lk (.cons tr (.cons ci .nil)) => vlookupCall ctx lk tr ci
    | .cons lk (.cons tr (.cons ci (.cons _ .nil))) => vlookupCall ctx lk tr ci
    | _ => .exn
  else .exn

/-- The result of evaluating an argument list. -/
inductive ArgsVal where
  | ok (vs : PyList) : ArgsVal
  | exn : ArgsVal

mutual
/-- Evaluate a restricted expression against the context.  Arguments are
evaluated before a call, left to right, and the first exception aborts the
whole expression (so an error inside the first argument of `IFERROR`
propagates past it, exactly as in the Python `eval`). -/
def evalExpr (ctx : EvalContext) : Expr → EvalVal
  | .lit v => .ok v
  | .name _ => .exn
  | .un op e =>
    match evalExpr ctx e with
    | .ok v => evalUn op v
    | .exn => .exn
  | .bin op a b =>
    match evalExpr ctx a with
    | .ok va =>
      match evalExpr ctx b with
      | .ok vb => evalBin op va vb
      | .exn => .exn
    | .exn => .exn
  | .call fn args =>
    match evalArgs ctx args with
    | .ok vs => applyFn ctx fn vs
    | .exn => .exn
/-- Evaluate an argument list left to right. -/
def evalArgs (ctx : EvalContext) : ExprList → ArgsVal
  | .nil => .ok .nil
  | .cons e rest =>
    match evalExpr ctx e with
    | .ok v =>
      (match evalArgs ctx rest with
       | .ok vs => .ok (.cons v vs)
       | .exn => .exn)
    | .exn => .exn
end

/-- `eval_formula` (src/app.py lines 321-366): transform the formula, then
evaluate it under the restricted environment; any parse or evaluation
failure is caught and returned as the error result. -/
def eval_formula (ctx : EvalContext) (formula : String) : EvalVal :=
  match parseExpr (transform_formula formula) with
  | some e => evalExpr ctx e
  | Option.none => .exn

/-! ## Recalculation Engine: `recalc_block` (src/app.py lines 369-389) -/

/-- One body iteration of the inner loop of `recalc_block` (lines 379-387):
evaluate the formula against the current store, degrade an exception to
`None`, and write (counting a change) only when the new value differs from
the stored one by Python `!=`. -/
def pass_step (wb : Workbook) (sheet : String) :
    Store × Nat → String × String → Store × Nat
  | (vals, changed), (addr, f) =>
    let val_new := eval_formula ⟨wb, sheet, vals⟩ f
    let val_old := storeGet vals addr
    let v := match val_new with | .exn => PyVal.none | .ok v => v
    if pyEqB v val_old then (vals, changed) else (storeSet vals addr v, changed + 1)

/-- One full pass over the formula set (lines 378-387), returning the
updated store and the number of changed cells. -/
def run_pass (wb : Workbook) (sheet : String) (fs : List (String × String))
    (vals : Store) : Store × Nat :=
  fs.foldl (pass_step wb sheet) (vals, 0)

/-- The pass loop of `recalc_block` (lines 377-389): up to `maxIters`
passes, stopping early after a pass with zero changes. -/
def recalc_loop (wb : Workbook) (sheet : String) (fs : List (String × String)) :
    Nat → Store → Store
  | 0, vals => vals
  | n + 1, vals =>
    let p := run_pass wb sheet fs vals
    if p.2 = 0 then p.1 else recalc_loop wb sheet fs n p.1

/-- The number of passes the loop of `recalc_block` executes before
returning (for the same fuel and store as `recalc_loop`). -/
def passesTaken (wb : Workbook) (sheet : String) (fs : List (String × String)) :
    Nat → Store → Nat
  | 0, _ => 0
  | n + 1, vals =>
    let p := run_pass wb sheet fs vals
    if p.2 = 0 then 1 else passesTaken wb sheet fs n p.1 + 1

/-- The store after `k` unconditional passes. -/
def passIter (wb : Workbook) (sheet : String) (fs : List (String × String)) :
    Nat → Store → Store
  | 0, vals => vals
  | k + 1, vals => passIter wb sheet fs k (run_pass wb sheet fs vals).1

/-- The change count of the pass executed on the store after `j` passes. -/
def passChanged (wb : Workbook) (sheet : String) (fs : List (String × String))
    (j : Nat) (vals : Store) : Nat :=
  (run_pass wb sheet fs (passIter wb sheet fs j vals)).2

/-- The formula harvest of `recalc_block` (lines 371-375): the addresses of
`addr_list` whose worksheet cell text is a string starting with the formula
marker, paired with that text; a Python dict keyed by address, so a repeated
address is kept at its first position only. -/
def collect_formulas_go (ws : Worksheet) (seen : List String) :
    List String → List (String × String)
  | [] => []
  | a :: rest =>
    if seen.contains a then collect_formulas_go ws seen rest
    else
      match wsGetA1 ws a with
      | .str v =>
        if pyStartsWithEq v then (a, v) :: collect_formulas_go ws (a :: seen) rest
        else collect_formulas_go ws seen rest
      | _ => collect_formulas_go ws seen rest

/-- The formula set discovered by `recalc_block` from the worksheet and the
address list. -/
def collect_formulas (ws : Worksheet) (addrs : List String) : List (String × String) :=
  collect_formulas_go ws [] addrs

/-- `recalc_block` (src/app.py lines 369-389): harvest the formula cells,
then iterate evaluation passes until a stable pass or the pass limit.
Returns the final store (the source mutates `ctx.values` in place). -/
def recalc_block (ctx : EvalContext) (ws : Worksheet) (addr_list : List String)
    (max_iters : Nat := 20) : Store :=
  recalc_loop ctx.wb ctx.sheet (collect_formulas ws addr_list) max_iters ctx.values

/-- Does the worksheet cell at this address hold formula text (a string
starting with the formula marker)? -/
def isFormulaCell (ws : Worksheet) (a : String) : Bool :=
  match wsGetA1 ws a with
  | .str v => pyStartsWithEq v
  | _ => false

/-! ## Concrete fixtures used by the witnesses and counterexamples -/

/-- A small reference table occupying A2:C5 of every sheet: city keys in
column A, numbers in column B. -/
def wsData : Worksheet := fun r c =>
  if c = 1 then
    (if r = 2 then .str "Moscow" else if r = 3 then .str "SPB"
     else if r = 4 then .str "Kazan" else if r = 5 then .str "Omsk" else .none)
  else if c = 2 then
    (if r = 2 then .num 120 else if r = 3 then .num 95
     else if r = 4 then .num 77 else if r = 5 then .num 60 else .none)
  else if c = 3 then
    (if r = 2 then .str "RU-MOW" else if r = 3 then .str "RU-SPE"
     else if r = 4 then .str "RU-TA" else if r = 5 then .str "RU-OMS" else .none)
  else .none

/-- A workbook whose every sheet is the reference table. -/
def wbData : Workbook := fun _ => wsData

/-- A context over `wbData` with an empty value store. -/
def ctxData : EvalContext := ⟨wbData, "TEMPLATE", []⟩

/-- An empty workbook. -/
def wbEmpty : Workbook := fun _ _ _ => .none

/-- A worksheet whose single cell A1 carries the self-referencing formula
of the pass-limit liveness property. -/
def wsSelfRef : Worksheet := fun r c =>
  if r = 1 && c = 1 then .str "=A1+1" else .none

/-- A context for the self-reference example: A1 starts at 0. -/
def ctxSelfRef : EvalContext := ⟨wbEmpty, "TEMPLATE", [("A1", .num 0)]⟩

/-- A worksheet whose cell A1 carries a constant formula (stabilizes after
two passes) and whose cell B1 holds a literal. -/
def wsConst : Worksheet := fun r c =>
  if r = 1 && c = 1 then .str "=1+1" else if r = 1 && c = 2 then .num 3 else .none

/-- A context for the constant-formula example; B1 is an input the caller
wrote. -/
def ctxConst : EvalContext := ⟨wbEmpty, "TEMPLATE", [("A1", .none), ("B1", .num 7)]⟩

/-! ## Specification-side helpers for the theorems -/

mutual
/-- Full flattening of an argument list (the traversal order of
`_excel_sum`): a list element contributes its own flattening, a scalar
contributes itself. -/
def flattenList : PyList → List PyVal
  | .nil => []
  | .cons v rest => flattenItem v ++ flattenList rest
/-- Full flattening of one argument. -/
def flattenItem : PyVal → List PyVal
  | .list xs => flattenList xs
  | v => [v]
end

/-- One-level flattening of an argument list (the traversal `_excel_max`
actually performs): a list element contributes its direct elements, a
scalar contributes itself. -/
def oneLevelArgs : PyList → List PyVal
  | .nil => []
  | .cons (.list xs) rest => xs.toList ++ oneLevelArgs rest
  | .cons v rest => v :: oneLevelArgs rest



/-! ## Bridge and helper lemmas -/

theorem qadd_eq (a b : Rat) : qadd a b = a + b := (Rat.add_def' a b).symm

theorem pyEqB_none_iff (w : PyVal) : pyEqB .none w = true ↔ w = .none := by
  cases w <;> simp [pyEqB]

theorem storeGet_set_self (s : Store) (a : String) (v : PyVal) :
    storeGet (storeSet s a v) a = v := by
  induction s with
  | nil => simp [storeSet, storeGet, storeLookup]
  | cons p rest ih =>
    by_cases h : p.1 = a
    · simp [storeSet, storeGet, storeLookup, h]
    · simp only [storeSet, beq_iff_eq, h, if_false]
      simpa [storeGet, storeLookup, h] using ih

theorem storeLookup_set_ne (s : Store) (k : String) (v : PyVal) (a : String)
    (h : a ≠ k) : storeLookup (storeSet s k v) a = storeLookup s a := by
  induction s with
  | nil => simp [storeSet, storeLookup, Ne.symm h]
  | cons p rest ih =>
    by_cases hpk : p.1 = k
    · simp [storeSet, storeLookup, hpk, Ne.symm h]
    · by_cases hpa : p.1 = a <;> simp [storeSet, storeLookup, hpk, hpa, h, ih]

theorem pass_step_lookup_ne (wb : Workbook) (sheet : String) (acc : Store × Nat)
    (af : String × String) (addr : String) (h : addr ≠ af.1) :
    storeLookup (pass_step wb sheet acc af).1 addr = storeLookup acc.1 addr := by
  obtain ⟨vals, changed⟩ := acc
  obtain ⟨a, f⟩ := af
  simp only [pass_step]
  by_cases hc : pyEqB
      (match eval_formula ⟨wb, sheet, vals⟩ f with
       | .exn => PyVal.none
       | .ok v => v) (storeGet vals a) = true
  · simp [hc]
  · simp only [hc, if_false]
    exact storeLookup_set_ne _ _ _ _ h

theorem foldl_pass_lookup_notin (wb : Workbook) (sheet : String) :
    ∀ (fs : List (String × String)) (acc : Store × Nat) (addr : String),
      addr ∉ fs.map Prod.fst →
      storeLookup (fs.foldl (pass_step wb sheet) acc).1 addr = storeLookup acc.1 addr := by
  intro fs
  induction fs with
  | nil => intro acc addr _; rfl
  | cons af rest ih =>
    intro acc addr h
    simp only [List.map_cons, List.mem_cons] at h
    push_neg at h
    rw [List.foldl_cons, ih _ _ h.2, pass_step_lookup_ne _ _ _ _ _ h.1]

theorem run_pass_lookup_notin (wb : Workbook) (sheet : String)
    (fs : List (String × String)) (vals : Store) (addr : String)
    (h : addr ∉ fs.map Prod.fst) :
    storeLookup (run_pass wb sheet fs vals).1 addr = storeLookup vals addr :=
  foldl_pass_lookup_notin wb sheet fs (vals, 0) addr h

theorem recalc_loop_lookup_notin (wb : Workbook) (sheet : String)
    (fs : List (String × String)) :
    ∀ (n : Nat) (vals : Store) (addr : String), addr ∉ fs.map Prod.fst →
      storeLookup (recalc_loop wb sheet fs n vals) addr = storeLookup vals addr := by
  intro n
  induction n with
  | zero => intro vals addr _; rfl
  | succ n ih =>
    intro vals addr h
    unfold recalc_loop
    simp only []
    by_cases hc : (run_pass wb sheet fs vals).2 = 0
    · simp only [hc, if_true]
      exact run_pass_lookup_notin wb sheet fs vals addr h
    · simp only [hc, if_false]
      rw [ih _ _ h, run_pass_lookup_notin wb sheet fs vals addr h]

theorem collect_formulas_go_mem (ws : Worksheet) :
    ∀ (addrs : List String) (seen : List String) (p : String × String),
      p ∈ collect_formulas_go ws seen addrs →
      p.1 ∈ addrs ∧ isFormulaCell ws p.1 = true := by
  intro addrs
  induction addrs with
  | nil => intro seen p h; simp [collect_formulas_go] at h
  | cons a rest ih =>
    intro seen p h
    unfold collect_formulas_go at h
    by_cases hseen : seen.contains a = true
    · rw [if_pos hseen] at h
      have := ih seen p h
      exact ⟨List.mem_cons_of_mem _ this.1, this.2⟩
    · rw [if_neg hseen] at h
      rcases hws : wsGetA1 ws a with _ | q | b | v | xs <;> simp only [hws] at h
      · have := ih seen p h
        exact ⟨List.mem_cons_of_mem _ this.1, this.2⟩
      · have := ih seen p h
        exact ⟨List.mem_cons_of_mem _ this.1, this.2⟩
      · have := ih seen p h
        exact ⟨List.mem_cons_of_mem _ this.1, this.2⟩
      · by_cases hv : pyStartsWithEq v = true
        · rw [if_pos hv] at h
          rcases List.mem_cons.mp h with h | h
          · subst h
            exact ⟨List.mem_cons_self _ _, by simp [isFormulaCell, hws, hv]⟩
          · have := ih _ p h
            exact ⟨List.mem_cons_of_mem _ this.1, this.2⟩
        · rw [if_neg hv] at h
          have := ih seen p h
          exact ⟨List.mem_cons_of_mem _ this.1, this.2⟩
      · have := ih seen p h
        exact ⟨List.mem_cons_of_mem _ this.1, this.2⟩

theorem recalc_loop_eq_passIter (wb : Workbook) (sheet : String)
    (fs : List (String × String)) :
    ∀ (n : Nat) (vals : Store),
      recalc_loop wb sheet fs n vals
        = passIter wb sheet fs (passesTaken wb sheet fs n vals) vals := by
  intro n
  induction n with
  | zero => intro vals; rfl
  | succ n ih =>
    intro vals
    unfold recalc_loop passesTaken
    simp only []
    by_cases h : (run_pass wb sheet fs vals).2 = 0
    · simp only [h, if_true]
      rfl
    · simp only [h, if_false]
      exact ih _

theorem passesTaken_le (wb : Workbook) (sheet : String)
    (fs : List (String × String)) :
    ∀ (n : Nat) (vals : Store), passesTaken wb sheet fs n vals ≤ n := by
  intro n
  induction n with
  | zero => intro vals; exact Nat.le_refl 0
  | succ n ih =>
    intro vals
    unfold passesTaken
    simp only []
    by_cases h : (run_pass wb sheet fs vals).2 = 0
    · simp only [h, if_true]
      exact Nat.succ_le_succ (Nat.zero_le n)
    · simp only [h, if_false]
      exact Nat.succ_le_succ (ih _)

theorem passChanged_succ (wb : Workbook) (sheet : String)
    (fs : List (String × String)) (j : Nat) (vals : Store) :
    passChanged wb sheet fs (j + 1) vals
      = passChanged wb sheet fs j (run_pass wb sheet fs vals).1 := rfl

theorem passesTaken_minimal (wb : Workbook) (sheet : String)
    (fs : List (String × String)) :
    ∀ (n : Nat) (vals : Store) (j : Nat),
      j + 1 < passesTaken wb sheet fs n vals →
      passChanged wb sheet fs j vals ≠ 0 := by
  intro n
  induction n with
  | zero => intro vals j h; simp [passesTaken] at h
  | succ n ih =>
    intro vals j h
    unfold passesTaken at h
    simp only [] at h
    by_cases hc : (run_pass wb sheet fs vals).2 = 0
    · rw [hc] at h
      rw [if_pos rfl] at h
      omega
    · simp only [hc, if_false] at h
      rcases j with _ | j'
      · exact hc
      · rw [passChanged_succ]
        exact ih _ j' (by omega)

theorem passesTaken_early_stop (wb : Workbook) (sheet : String)
    (fs : List (String × String)) :
    ∀ (n : Nat) (vals : Store),
      passesTaken wb sheet fs n vals < n →
      0 < passesTaken wb sheet fs n vals
      ∧ passChanged wb sheet fs (passesTaken wb sheet fs n vals - 1) vals = 0 := by
  intro n
  induction n with
  | zero => intro vals h; omega
  | succ n ih =>
    intro vals h
    unfold passesTaken at h ⊢
    simp only [] at h ⊢
    by_cases hc : (run_pass wb sheet fs vals).2 = 0
    · simp only [hc, if_true]
      exact ⟨Nat.zero_lt_one, hc⟩
    · simp only [hc, if_false] at h ⊢
      have hlt : passesTaken wb sheet fs n (run_pass wb sheet fs vals).1 < n := by omega
      obtain ⟨hpos, hstable⟩ := ih _ hlt
      refine ⟨by omega, ?_⟩
      obtain ⟨m, hm⟩ : ∃ m, passesTaken wb sheet fs n (run_pass wb sheet fs vals).1 = m + 1 :=
        ⟨_, (Nat.succ_pred_eq_of_pos hpos).symm⟩
      rw [hm]
      simp only [Nat.add_sub_cancel]
      rw [passChanged_succ]
      rw [hm] at hstable
      simpa using hstable

theorem vlookupScan_eq_find (wb : Workbook) (sheet : String) (ls : String)
    (ca cb : Nat) (ci : Int) :
    ∀ rows : List Nat,
      vlookupScan wb sheet ls ca cb ci rows =
        match rows.find? (fun r => pyStrip (pyStr (wb sheet r ca)) == ls) with
        | Option.none => PyVal.none
        | some r =>
          if ci < 1 ∨ (cb : Int) - (ca : Int) + 1 < ci then PyVal.none
          else wb sheet r (((ca : Int) + (ci - 1)).toNat) := by
  intro rows
  induction rows with
  | nil => rfl
  | cons r rest ih =>
    by_cases h : (pyStrip (pyStr (wb sheet r ca)) == ls) = true
    · rw [List.find?_cons, h]
      unfold vlookupScan
      simp only [h, if_true]
      by_cases h2 : ci < 1 ∨ (cb : Int) - (ca : Int) + 1 < ci
      · have hb : ((ca : Int) + (ci - 1) < (ca : Int) || (cb : Int) < (ca : Int) + (ci - 1)) = true := by
          simp only [Bool.or_eq_true, decide_eq_true_eq]
          omega
        simp [hb, h2]
        intros
        exfalso
        omega
      · have hb : ((ca : Int) + (ci - 1) < (ca : Int) || (cb : Int) < (ca : Int) + (ci - 1)) = false := by
          simp only [Bool.or_eq_false_iff, decide_eq_false_iff_not]
          omega
        simp [hb, h2]
        intros
        exfalso
        omega
    · rw [List.find?_cons, Bool.of_not_eq_true h]
      unfold vlookupScan
      simp only [h, if_false]
      exact ih

theorem excel_sum_flatten :
    ∀ args : PyList, excel_sum args = ((flattenList args).filterMap coerce_float).sum := by
  intro args
  induction args using PyList.rec
    (motive_1 := fun v =>
      (excel_sum_item v).getD 0 = ((flattenItem v).filterMap coerce_float).sum) with
  | none => simp [excel_sum_item, flattenItem, coerce_float]
  | num q => simp [excel_sum_item, flattenItem, coerce_float]
  | bool b => cases b <;> simp [excel_sum_item, flattenItem, coerce_float]
  | str s =>
    simp only [excel_sum_item, flattenItem, List.filterMap_cons, List.filterMap_nil]
    rcases h : coerce_float (.str s) with _ | q <;> simp [h]
  | list xs ihxs => simpa [excel_sum_item, flattenItem] using ihxs
  | nil => simp [excel_sum, flattenList]
  | cons v rest ihv ihrest =>
    have hstep : excel_sum (.cons v rest) = (excel_sum_item v).getD 0 + excel_sum rest := by
      rcases h : excel_sum_item v with _ | n <;> simp [excel_sum, h, qadd_eq]
    rw [hstep, ihv, ihrest]
    simp [flattenList, List.filterMap_append]

theorem collectMaxNums_eq (args : PyList) :
    collectMaxNums args = (oneLevelArgs args).filterMap coerce_float := by
  induction args using PyList.rec (motive_1 := fun _ => True) with
  | none => trivial
  | num q => trivial
  | bool b => trivial
  | str s => trivial
  | list xs _ => trivial
  | nil => rfl
  | cons v rest ihv ihrest =>
    cases v with
    | list xs => simp [collectMaxNums, oneLevelArgs, List.filterMap_append, ihrest]
    | none => simp [collectMaxNums, oneLevelArgs, coerce_float, ihrest]
    | num q => simp [collectMaxNums, oneLevelArgs, coerce_float, ihrest]
    | bool b => simp [collectMaxNums, oneLevelArgs, coerce_float, ihrest]
    | str s =>
      simp only [collectMaxNums, oneLevelArgs, List.filterMap_cons]
      rcases h : coerce_float (.str s) with _ | q <;> simp [h, ihrest]

/-! ## Claim theorems -/

/-- C1 (counterexample): with a value store whose A2:C5 table has no row
with key "Unknown", `VLOOKUP("Unknown", "A2:C5", 2)` returns absent (not an
error signal), and `IFERROR` applied to that absent value and the fallback
`0` returns the absent value — not `0` as the claim asserts. -/
theorem iferror_vlookup_notfound_cex :
    excel_vlookup ctxData (.str "Unknown") "A2:C5" 2 = .ok .none
    ∧ excel_iferror (.val .none) (.val (.num 0)) = .val .none
    ∧ PyObj.val PyVal.none ≠ PyObj.val (.num 0) :=
  ⟨rfl, rfl, by simp⟩

/-- C1 (amended): `IFERROR` returns its fallback exactly when its first
argument is an exception object and otherwise returns the first argument
unchanged (including when it is empty or zero); in particular, for a value
store whose table has no row with key "Unknown",
`IFERROR(VLOOKUP("Unknown", "A2:C5", 2), 0)` returns absent — because the
failed lookup yields absent, not an error signal — and not `0`. -/
theorem iferror_contract_and_notfound :
    (∀ fb, excel_iferror .exc fb = fb)
    ∧ (∀ v fb, excel_iferror (.val v) fb = .val v)
    ∧ excel_vlookup ctxData (.str "Unknown") "A2:C5" 2 = .ok .none
    ∧ excel_iferror (.val .none) (.val (.num 0)) = .val .none :=
  ⟨fun _ => rfl, fun _ _ => rfl, rfl, rfl⟩

/-- C2 (code bug): the transformer does NOT leave quoted literals
unchanged.  The range rewrite runs before string protection, so an
`addr:addr` pattern inside a literal is rewritten; and the `__STRn__`
placeholder itself matches the bare-address pattern, so the cell rewrite
mangles it into `__CELL('STRn')__` and the restoration step finds no
`__STRn__` to replace — the literal disappears from the output.  Both
failures evaluated on concrete formulas. -/
theorem transform_literal_mangled :
    transform_formula "=IF(A1=\"x\",1,0)" = "IF(CELL('A1')=__CELL('STR0')__,1,0)"
    ∧ 'x' ∉ (transform_formula "=IF(A1=\"x\",1,0)").toList
    ∧ transform_formula "=IF(A1=\"B2:C3\",\"x\",\"y\")"
        = "IF(CELL('A1')=__CELL('STR0')__,__CELL('STR1')__,__CELL('STR2')__)" :=
  ⟨rfl, by decide, rfl⟩

/-- C3: `recalc_block` terminates for every store, worksheet, address list
and pass limit: it returns the store reached after `passesTaken` passes,
which never exceeds the limit; every pass before the last made at least one
change; and when it stops below the limit, the final pass made no change —
so it returns after the first stable pass or after the pass limit,
whichever comes first.  In particular the self-referencing formula set
`A1 = "=A1+1"` (with `A1` starting at `0`) runs to the pass limit of 20 and
still returns. -/
theorem recalc_block_terminates :
    (∀ (ctx : EvalContext) (ws : Worksheet) (addrs : List String) (maxIters : Nat),
      recalc_block ctx ws addrs maxIters
        = passIter ctx.wb ctx.sheet (collect_formulas ws addrs)
            (passesTaken ctx.wb ctx.sheet (collect_formulas ws addrs) maxIters ctx.values)
            ctx.values
      ∧ passesTaken ctx.wb ctx.sheet (collect_formulas ws addrs) maxIters ctx.values ≤ maxIters
      ∧ (∀ j, j + 1 < passesTaken ctx.wb ctx.sheet (collect_formulas ws addrs) maxIters ctx.values →
          passChanged ctx.wb ctx.sheet (collect_formulas ws addrs) j ctx.values ≠ 0)
      ∧ (passesTaken ctx.wb ctx.sheet (collect_formulas ws addrs) maxIters ctx.values < maxIters →
          0 < passesTaken ctx.wb ctx.sheet (collect_formulas ws addrs) maxIters ctx.values
          ∧ passChanged ctx.wb ctx.sheet (collect_formulas ws addrs)
              (passesTaken ctx.wb ctx.sheet (collect_formulas ws addrs) maxIters ctx.values - 1)
              ctx.values = 0))
    ∧ passesTaken wbEmpty "TEMPLATE" (collect_formulas wsSelfRef ["A1"]) 20 ctxSelfRef.values = 20
    ∧ recalc_block ctxSelfRef wsSelfRef ["A1"] 20 = [("A1", PyVal.num 20)] := by
  refine ⟨fun ctx ws addrs maxIters => ⟨?_, ?_, ?_, ?_⟩, by rfl, by rfl⟩
  · exact recalc_loop_eq_passIter _ _ _ _ _
  · exact passesTaken_le _ _ _ _ _
  · exact fun j h => passesTaken_minimal _ _ _ _ _ j h
  · exact fun h => passesTaken_early_stop _ _ _ _ _ h

/-- Witness for C3: on the constant-formula fixture, the engine stops below
the limit, after a pass with no change. -/
theorem recalc_block_terminates_witness :
    0 < passesTaken wbEmpty "TEMPLATE" (collect_formulas wsConst ["A1", "B1"]) 20 ctxConst.values
    ∧ passChanged wbEmpty "TEMPLATE" (collect_formulas wsConst ["A1", "B1"])
        (passesTaken wbEmpty "TEMPLATE" (collect_formulas wsConst ["A1", "B1"]) 20 ctxConst.values - 1)
        ctxConst.values = 0 :=
  (recalc_block_terminates.1 ctxConst wsConst ["A1", "B1"] 20).2.2.2 (by decide)

/-- C4: `recalc_block` writes only the value-store addresses of the given
address list whose worksheet cell holds formula text (a string starting
with the formula marker); every other address — in particular every input
cell the caller wrote before invocation — keeps exactly its pre-invocation
store entry. -/
theorem recalc_writes_only_formula_cells
    (ctx : EvalContext) (ws : Worksheet) (addrs : List String) (maxIters : Nat)
    (addr : String) (h : addr ∉ addrs ∨ isFormulaCell ws addr = false) :
    storeLookup (recalc_block ctx ws addrs maxIters) addr = storeLookup ctx.values addr := by
  apply recalc_loop_lookup_notin
  intro hmem
  rcases List.mem_map.mp hmem with ⟨p, hp, hfst⟩
  obtain ⟨h1, h2⟩ := collect_formulas_go_mem ws addrs [] p hp
  rcases h with h | h
  · exact h (hfst ▸ h1)
  · rw [hfst] at h2
    rw [h] at h2
    exact Bool.noConfusion h2

/-- Witness for C4: the literal cell B1 keeps its caller-written value. -/
theorem recalc_writes_only_formula_cells_witness :
    storeLookup (recalc_block ctxConst wsConst ["A1", "B1"] 20) "B1"
      = storeLookup ctxConst.values "B1" :=
  recalc_writes_only_formula_cells ctxConst wsConst ["A1", "B1"] 20 "B1" (Or.inr rfl)

/-- C5: an evaluation failure is contained.  (i) When a formula's
evaluation yields the error result, the value stored for that cell by the
pass step is absent (`None`).  (ii) A pass over a concatenated formula list
processes the second part from the state left by the first — one failing
formula never aborts the batch.  (iii) `eval_formula` is total: it returns
either the error result or a value, so no failure propagates out of the
engine. -/
theorem eval_failure_contained :
    (∀ (wb : Workbook) (sheet : String) (vals : Store) (changed : Nat) (addr f : String),
      eval_formula ⟨wb, sheet, vals⟩ f = .exn →
      storeGet (pass_step wb sheet (vals, changed) (addr, f)).1 addr = PyVal.none)
    ∧ (∀ (wb : Workbook) (sheet : String) (fs1 fs2 : List (String × String)) (vals : Store),
      run_pass wb sheet (fs1 ++ fs2) vals
        = fs2.foldl (pass_step wb sheet) (run_pass wb sheet fs1 vals))
    ∧ (∀ (ctx : EvalContext) (f : String),
      eval_formula ctx f = .exn ∨ ∃ v, eval_formula ctx f = .ok v) := by
  refine ⟨?_, ?_, ?_⟩
  · intro wb sheet vals changed addr f h
    simp only [pass_step]
    rw [h]
    by_cases hc : pyEqB PyVal.none (storeGet vals addr) = true
    · simp only [hc, if_true]
      exact (pyEqB_none_iff _).mp hc
    · simp only [hc, if_false]
      exact storeGet_set_self _ _ _
  · intro wb sheet fs1 fs2 vals
    unfold run_pass
    exact List.foldl_append _ _ _ _
  · intro ctx f
    rcases h : eval_formula ctx f with v | _
    · exact Or.inr ⟨v, rfl⟩
    · exact Or.inl rfl

/-- Witness for C5: a malformed formula evaluates to the error result, and
the pass step leaves the cell absent (here overwriting a previous value). -/
theorem eval_failure_contained_witness :
    storeGet (pass_step wbEmpty "TEMPLATE" ([("A1", PyVal.num 5)], 0) ("A1", "=FOO(")).1 "A1"
      = PyVal.none :=
  eval_failure_contained.1 wbEmpty "TEMPLATE" [("A1", PyVal.num 5)] 0 "A1" "=FOO(" rfl

/-- C6: for a same-sheet range reference that parses to corners
`(aCol, aRow)`..`(bCol, bRow)`, `_excel_vlookup` scans the rows
`aRow..bRow` top-to-bottom, compares the leftmost-column value of each row
against the lookup value by string form (exact string equality, no type
coercion), returns on the first matching row the value `columnIndex`
columns to the right of the leftmost column (1-based, index 1 being the
leftmost column itself), returns absent if `columnIndex` places the read
outside the declared range, and returns absent if no row matches. -/
theorem vlookup_first_match_spec
    (ctx : EvalContext) (lookup : PyVal) (rng : String) (ci : Int)
    (aRef bRef aCol bCol : String) (aRow bRow : Nat)
    (h1 : strContainsBang rng = false)
    (h2 : parse_range rng = some (aRef, bRef))
    (h3 : addrParts aRef = some (aCol, aRow))
    (h4 : addrParts bRef = some (bCol, bRow)) :
    excel_vlookup ctx lookup rng ci =
      .ok (match (List.range' aRow (bRow + 1 - aRow)).find?
            (fun r => pyStrip (pyStr (ctx.wb ctx.sheet r (column_index_from_string aCol)))
              == vlookupKeyStr lookup) with
          | Option.none => PyVal.none
          | some r =>
            if ci < 1
                ∨ (column_index_from_string bCol : Int) - (column_index_from_string aCol : Int) + 1 < ci
            then PyVal.none
            else ctx.wb ctx.sheet r
              (((column_index_from_string aCol : Int) + (ci - 1)).toNat)) := by
  unfold excel_vlookup
  simp only [h1, Bool.false_eq_true, if_false, h2, h3, h4]
  rw [vlookupScan_eq_find]

/-- Witness for C6: looking up "Kazan" in the concrete A2:C5 table. -/
theorem vlookup_first_match_spec_witness :
    excel_vlookup ctxData (.str "Kazan") "A2:C5" 2 =
      .ok (match (List.range' 2 (5 + 1 - 2)).find?
            (fun r => pyStrip (pyStr (ctxData.wb ctxData.sheet r (column_index_from_string "A")))
              == vlookupKeyStr (.str "Kazan")) with
          | Option.none => PyVal.none
          | some r =>
            if (2 : Int) < 1
                ∨ (column_index_from_string "C" : Int) - (column_index_from_string "A" : Int) + 1 < 2
            then PyVal.none
            else ctxData.wb ctxData.sheet r
              (((column_index_from_string "A" : Int) + (2 - 1)).toNat)) :=
  vlookup_first_match_spec ctxData (.str "Kazan") "A2:C5" 2 "A2" "C5" "A" "C" 2 5
    rfl rfl rfl rfl

/-- C7: `coerce_float` is pure and total, and its rules apply in order:
`None` yields absent; native numbers (booleans included) pass through; a
string is stripped, yields absent when empty, and is otherwise
whitespace-cleaned and comma-normalized before parsing, with parse failure
yielding absent (the `Option` result); a list stringifies to a bracketed
form that never parses, hence absent; and for every input the result is a
number or absent — never an exception. -/
theorem coerce_float_total_and_rules :
    coerce_float .none = Option.none
    ∧ (∀ q, coerce_float (.num q) = some q)
    ∧ (∀ b, coerce_float (.bool b) = some (if b then 1 else 0))
    ∧ (∀ s, coerce_float (.str s)
        = if pyStrip s = "" then Option.none else parsePyFloat (normalizeNumStr (pyStrip s)))
    ∧ (∀ xs, coerce_float (.list xs) = Option.none)
    ∧ (∀ v, coerce_float v = Option.none ∨ ∃ q, coerce_float v = some q) := by
  refine ⟨rfl, fun _ => rfl, fun _ => rfl, fun _ => rfl, fun _ => rfl, ?_⟩
  intro v
  rcases h : coerce_float v with _ | q
  · exact Or.inl rfl
  · exact Or.inr ⟨q, rfl⟩

/-- C8: `_excel_sum` flattens nested list arguments and sums exactly the
elements that coerce to a number (ignoring the rest); the empty argument
list sums to 0; and the concrete list ["3", "4,5", "", "x"] sums to 7.5. -/
theorem excel_sum_spec :
    (∀ args : PyList, excel_sum args = ((flattenList args).filterMap coerce_float).sum)
    ∧ excel_sum .nil = 0
    ∧ excel_sum (.cons (.str "3") (.cons (.str "4,5") (.cons (.str "") (.cons (.str "x") .nil))))
        = (7.5 : Rat) := by
  refine ⟨excel_sum_flatten, rfl, ?_⟩
  have h : excel_sum (.cons (.str "3") (.cons (.str "4,5") (.cons (.str "") (.cons (.str "x") .nil))))
      = mkRat 15 2 := rfl
  rw [h, Rat.mkRat_eq_divInt, Rat.divInt_eq_div]
  norm_num

/-- C9 (counterexample): `_excel_max` does not apply the same flattening as
`_excel_sum`: on the doubly nested argument `[[ [5.0] ]]` the sum side
flattens down to the 5 (and `_excel_sum` returns 5), but `_excel_max`
ignores the inner list (it coerces to absent) and returns 0, not the
maximum 5 of the flattened numeric values. -/
theorem excel_max_nested_cex :
    excel_max (.cons (.list (.cons (.list (.cons (.num 5) .nil)) .nil)) .nil) = 0
    ∧ ((flattenList (.cons (.list (.cons (.list (.cons (.num 5) .nil)) .nil)) .nil)).filterMap
        coerce_float) = [5]
    ∧ excel_sum (.cons (.list (.cons (.list (.cons (.num 5) .nil)) .nil)) .nil) = 5
    ∧ (0 : Rat) ≠ 5 :=
  ⟨rfl, rfl, rfl, by norm_num⟩

/-- C9 (amended): `_excel_max` flattens exactly one level — a list
argument contributes the coercions of its direct elements (an element that
is itself a list coerces to absent and is ignored), a scalar argument
contributes its own coercion — and returns the maximum of the collected
numeric values, or 0 if there are none. -/
theorem excel_max_one_level_spec :
    ∀ args : PyList,
      excel_max args =
        match (oneLevelArgs args).filterMap coerce_float with
        | [] => 0
        | n :: rest => rest.foldl qmax n := by
  intro args
  unfold excel_max
  rw [collectMaxNums_eq]

/-- C10: Value Coercion treats booleans as native numbers —
`coerce_float True = 1.0` and `coerce_float False = 0.0` — and therefore
`_excel_sum` counts a boolean element as 1 or 0 instead of ignoring it as
non-numeric. -/
theorem coerce_bool_counts_in_sum :
    coerce_float (.bool true) = some 1
    ∧ coerce_float (.bool false) = some 0
    ∧ (∀ (b : Bool) (rest : PyList),
        excel_sum (.cons (.bool b) rest) = (if b then (1 : Rat) else 0) + excel_sum rest) := by
  refine ⟨rfl, rfl, ?_⟩
  intro b rest
  have h : excel_sum_item (.bool b) = some (if b then (1 : Rat) else 0) := rfl
  simp [excel_sum, h, qadd_eq]
